import Mathlib

/-!
Verification of the modus-forge generation orchestrator.

This development embeds the core pure algorithms of the repository —
the four-axis Spinoza validator, the iterate refiner, the iteration
chain, the A/B fallback test, the TTL/LRU cache manager, the sliding
window rate limiter, the lifecycle hook bus, and the genetic gene
tokenizer — as executable Lean definitions, and proves (or refutes)
the specification claims about them.

JavaScript numbers are modelled as exact rationals, JS strings as Lean
strings (with UTF-16 length where the source uses `.length`), regular
expression indicator tests as executable character-list scanners, and
`Map` objects as insertion-ordered association lists.  LLM calls
(`route`, the refiner's generation step) are uninterpreted function
parameters: every theorem quantifies over them.
-/

/-! ## JS string primitives -/

/-- Case-insensitive character list of a string (models a `/.../i` regex
subject: both pattern and subject lowered). -/
def lowerData (s : String) : List Char :=
  s.data.map Char.toLower

/-- Does the list start with the given pattern list? -/
def startsWithL : List Char → List Char → Bool
  | _, [] => true
  | [], _ :: _ => false
  | c :: cs, p :: ps => c == p && startsWithL cs ps

/-- Does the list contain the pattern list as a contiguous sublist? -/
def hasSubL (pat : List Char) : List Char → Bool
  | [] => pat.isEmpty
  | c :: cs => startsWithL (c :: cs) pat || hasSubL pat cs

/-- Case-insensitive substring test: models `/pat/i.test(hay)` for a
literal pattern `pat`. -/
def containsCI (hay pat : String) : Bool :=
  hasSubL (lowerData pat) (lowerData hay)

/-- Case-insensitive alternation test: models `/p1|p2|.../i.test(hay)`. -/
def anyCI (hay : String) (pats : List String) : Bool :=
  pats.any (containsCI hay)

/-- JS whitespace (`\s`): space, tab, LF, CR, VT, FF, NBSP, BOM. -/
def isJsWs (c : Char) : Bool :=
  c == ' ' || c == '\t' || c == '\n' || c == '\x0d' ||
  c == '\x0b' || c == '\x0c' || c == ' ' || c == '﻿'

/-- JS `String.prototype.length`: UTF-16 code units (astral chars count 2). -/
def jsLen (s : String) : ℕ :=
  s.data.foldl (fun n c => n + (if c.toNat ≥ 0x10000 then 2 else 1)) 0

/-- JS `String.prototype.trim`: strip `\s` from both ends. -/
def jsTrim (s : String) : String :=
  ⟨((s.data.dropWhile isJsWs).reverse.dropWhile isJsWs).reverse⟩

/-- JS `Math.round(x*10)/10`: round to one decimal, halves up. -/
def jsRound10 (x : ℚ) : ℚ :=
  ((⌊x * 10 + 1/2⌋ : ℤ) : ℚ) / 10

/-! ## Validator (src rune/validator.js, `validate`)

Each regex indicator of the source is embedded as an executable test. -/

/-- Indicator `/<(input|textarea|select|button)/i`. -/
def hasForm (code : String) : Bool :=
  anyCI code ["<input", "<textarea", "<select", "<button"]

/-- Indicator `/addEventListener|onclick|onsubmit|onChange/i`. -/
def hasEventListeners (code : String) : Bool :=
  anyCI code ["addEventListener", "onclick", "onsubmit", "onChange"]

/-- Indicator `/localStorage/i`. -/
def hasLocalStorage (code : String) : Bool :=
  containsCI code "localStorage"

/-- Indicator `/<canvas/i.test(code) || /getContext|Chart/i.test(code)`. -/
def hasCanvas (code : String) : Bool :=
  containsCI code "<canvas" || anyCI code ["getContext", "Chart"]

/-- Indicator `/<!DOCTYPE html>/i`. -/
def hasDoctype (code : String) : Bool :=
  containsCI code "<!DOCTYPE html>"

/-- Indicator `/<\/html>/i && /<\/body>/i`. -/
def hasClosingTags (code : String) : Bool :=
  containsCI code "</html>" && containsCI code "</body>"

/-- Indicator `/<script/i`. -/
def hasScript (code : String) : Bool :=
  containsCI code "<script"

/-- Helper for `/try\s*\{/i`: after "try", skip `\s*` and expect a brace. -/
def skipWsThenBrace : List Char → Bool
  | [] => false
  | c :: cs => if isJsWs c then skipWsThenBrace cs else c == '\x7b'

/-- Helper for `/try\s*\{/i`: tail after a 't'. -/
def tryTail : List Char → Bool
  | 'r' :: 'y' :: rest => skipWsThenBrace rest
  | _ => false

/-- Scanner for `/try\s*\{/i` over a lowered character list. -/
def hasTryBraceL : List Char → Bool
  | [] => false
  | c :: cs => (c == 't' && tryTail cs) || hasTryBraceL cs

/-- Indicator `/try\s*\{/i`. -/
def hasTryCatch (code : String) : Bool :=
  hasTryBraceL (lowerData code)

/-- Source computes `noConsoleLogs = !/console\.log\(/i.test(code)` but
never uses it in the scoring arithmetic (dead binding, kept for fidelity). -/
def noConsoleLogs (code : String) : Bool :=
  !(containsCI code "console.log(")

/-- Indicator `/<style/i`. -/
def hasStyle (code : String) : Bool :=
  containsCI code "<style"

/-- Scanner for the custom-property regex (two dashes followed by a
letter, case-insensitive): tracks the run of consecutive dashes seen
immediately before the current character. -/
def dashDashAlphaGo (dashes : ℕ) : List Char → Bool
  | [] => false
  | c :: cs =>
    if c == '-' then dashDashAlphaGo (dashes + 1) cs
    else if 2 ≤ dashes && 'a' ≤ c && c ≤ 'z' then true
    else dashDashAlphaGo 0 cs

/-- Indicator for CSS custom properties: two dashes then a letter. -/
def hasCustomProps (code : String) : Bool :=
  dashDashAlphaGo 0 (lowerData code)

/-- Indicator `/transition|animation|@keyframes/i`. -/
def hasTransitions (code : String) : Bool :=
  anyCI code ["transition", "animation", "@keyframes"]

/-- Indicator `/gradient/i`. -/
def hasGradient (code : String) : Bool :=
  containsCI code "gradient"

/-- Indicator `/@media/i`. -/
def hasMediaQuery (code : String) : Bool :=
  containsCI code "@media"

/-- Indicator `/<(header|main|footer|nav|section|article)/i`. -/
def hasSemantic (code : String) : Bool :=
  anyCI code ["<header", "<main", "<footer", "<nav", "<section", "<article"]

/-- Indicator `/aria-|role=/i`. -/
def hasAria (code : String) : Bool :=
  anyCI code ["aria-", "role="]

/-- Indicator `/placeholder=/i`. -/
def hasPlaceholder (code : String) : Bool :=
  containsCI code "placeholder="

/-- Indicator `/<title>/i`. -/
def hasTitle (code : String) : Bool :=
  containsCI code "<title>"

/-- Indicator `/[\u{1F300}-\u{1FAD6}]/u`. -/
def hasEmoji (code : String) : Bool :=
  code.data.any (fun c => 0x1F300 ≤ c.toNat && c.toNat ≤ 0x1FAD6)

/-- Raw conatus sum before clamping: weighted indicator checks. -/
def conatusRaw (code : String) : ℚ :=
  (if hasForm code then 0.3 else 0) +
  (if hasEventListeners code then 0.3 else 0) +
  (if hasLocalStorage code then 0.2 else 0) +
  (if hasCanvas code then 0.2 else 0)

/-- Raw ratio sum before clamping. -/
def ratioRaw (code : String) : ℚ :=
  (if hasDoctype code then 0.2 else 0) +
  (if hasClosingTags code then 0.2 else 0) +
  (if hasScript code then 0.2 else 0) +
  (if hasTryCatch code then 0.2 else 0) +
  (if jsLen code > 2000 then 0.2 else 0)

/-- Raw laetitia sum before clamping. -/
def laetitiaRaw (code : String) : ℚ :=
  (if hasStyle code then 0.25 else 0) +
  (if hasCustomProps code then 0.2 else 0) +
  (if hasTransitions code then 0.25 else 0) +
  (if hasGradient code then 0.15 else 0) +
  (if hasMediaQuery code then 0.15 else 0)

/-- Raw natura sum before clamping. -/
def naturaRaw (code : String) : ℚ :=
  (if hasSemantic code then 0.25 else 0) +
  (if hasAria code then 0.2 else 0) +
  (if hasPlaceholder code then 0.2 else 0) +
  (if hasTitle code then 0.2 else 0) +
  (if hasEmoji code then 0.15 else 0)

/-- JS `Math.min(a, b)` on (finite) numbers. -/
def jsMin (a b : ℚ) : ℚ :=
  if a ≤ b then a else b

/-- Clamp step of the source: `Math.min(1, Math.round(x * 10) / 10)`. -/
def clampAxis (x : ℚ) : ℚ :=
  jsMin 1 (jsRound10 x)

/-- Result record of `validate`.  The source's return object has no
`total` property; `total` is `none` until a caller adds it via
`withTotal`, so the field is an `Option`. -/
structure ScoreRec where
  conatus : ℚ
  ratio : ℚ
  laetitia : ℚ
  natura : ℚ
  grade : String
  issues : List String
  total : Option ℚ
deriving Repr, DecidableEq

/-- Issue list of `validate`, pushed in source declaration order. -/
def validateIssues (code : String) : List String :=
  (if hasForm code then [] else ["No input elements — low interactivity"]) ++
  (if hasEventListeners code then [] else ["No event listeners — static page"]) ++
  (if hasDoctype code then [] else ["Missing DOCTYPE"]) ++
  (if hasClosingTags code then [] else ["Missing closing HTML/body tags"]) ++
  (if jsLen code > 2000 then [] else ["Code seems too short — might be incomplete"]) ++
  (if hasStyle code then [] else ["No embedded styles"]) ++
  (if hasSemantic code then [] else ["No semantic HTML elements"])

/-- The validator `validate(code)` of rune/validator.js: scores the four
Spinoza axes by weighted indicator sums, clamps each to `[0,1]` after
rounding to one decimal, and grades the average.  Returns no `total`. -/
def validate (code : String) : ScoreRec :=
  let conatus := clampAxis (conatusRaw code)
  let ratio := clampAxis (ratioRaw code)
  let laetitia := clampAxis (laetitiaRaw code)
  let natura := clampAxis (naturaRaw code)
  let avg := (conatus + ratio + laetitia + natura) / 4
  let grade :=
    if avg ≥ 0.85 then "S" else if avg ≥ 0.7 then "A"
    else if avg ≥ 0.55 then "B" else if avg ≥ 0.4 then "C" else "D"
  ⟨conatus, ratio, laetitia, natura, grade, validateIssues code, none⟩

/-- Helper `withTotal` of the A/B test module (src iterate/abtest):
sets `score.total` to the average of the four Spinoza axis scores. -/
def withTotal (score : ScoreRec) : ScoreRec :=
  { score with
    total := some ((score.conatus + score.ratio + score.laetitia + score.natura) / 4) }

/-- Grade function as written in the specification (§3): `total ≥ 0.85 → S,
≥ 0.70 → A, ≥ 0.55 → B, ≥ 0.40 → C, else D`.  Stated from the spec's words
to compare against the source's grading. -/
def specGradeOfTotal (t : ℚ) : String :=
  if t ≥ 0.85 then "S" else if t ≥ 0.7 then "A"
  else if t ≥ 0.55 then "B" else if t ≥ 0.4 then "C" else "D"

/-! ## Iterate refiner (src iterate/refiner.js) -/

/-- JS `(x).toFixed(0)`: nearest integer, ties toward the larger value. -/
def jsToFixed0 (x : ℚ) : String :=
  toString (⌊x + 1/2⌋ : ℤ)

/-- Stable ascending insertion by score, modelling the stable JS
`Array.prototype.sort((a, b) => a[1] - b[1])`. -/
def insertByScore (x : String × ℚ) : List (String × ℚ) → List (String × ℚ)
  | [] => [x]
  | y :: ys => if y.2 ≤ x.2 then y :: insertByScore x ys else x :: y :: ys

/-- Stable sort by ascending score (insertion sort). -/
def sortByScore (l : List (String × ℚ)) : List (String × ℚ) :=
  l.foldl (fun acc x => insertByScore x acc) []

/-- Per-axis improvement hints of `buildRefinementPrompt`. -/
def axisHint (axis : String) : String :=
  if axis == "conatus" then
    "Add more interactive elements, event listeners, localStorage persistence, or canvas visualizations."
  else if axis == "ratio" then
    "Ensure DOCTYPE, proper closing tags, try/catch error handling, and substantial code structure."
  else if axis == "laetitia" then
    "Add CSS custom properties, transitions/animations, gradients, and responsive media queries."
  else
    "Use semantic HTML (header/main/footer/nav), ARIA attributes, placeholder text, and emoji."

/-- One focus-area line of `buildRefinementPrompt`. -/
def focusLine (p : String × ℚ) : String :=
  "- **" ++ p.1 ++ "** (" ++ jsToFixed0 (p.2 * 100) ++ "%): " ++ axisHint p.1

/-- Builds the refinement prompt of `buildRefinementPrompt(code, report)`:
lists the report's issues and the two lowest-scoring axes as focus areas. -/
def buildRefinementPrompt (code : String) (report : ScoreRec) : String :=
  let weakest := sortByScore
    [("conatus", report.conatus), ("ratio", report.ratio),
     ("laetitia", report.laetitia), ("natura", report.natura)]
  let focusAreas := (weakest.take 2).map focusLine
  "You are refining an existing web app. The app works but has quality gaps.\n\n" ++
  "## CURRENT CODE\n```html\n" ++ code ++ "\n```\n\n" ++
  "## ISSUES FOUND\n" ++
  (String.intercalate "\n" (report.issues.map (fun i => "- " ++ i))) ++
  "\n\n## FOCUS AREAS (lowest scores)\n" ++
  (String.intercalate "\n" focusAreas) ++
  "\n\n## INSTRUCTIONS\n1. Keep all existing functionality intact\n2. Fix the listed issues\n3. Improve the focus areas specifically\n4. Do NOT remove any working features\n5. Return the COMPLETE updated HTML file\n\nReturn ONLY the complete HTML. No markdown fences. No explanation.\nStart with <!DOCTYPE html> and end with </html>."

/-- Result record of `refine`. -/
structure RefineResult where
  code : String
  report : ScoreRec
  rounds : ℕ
  improved : Bool
deriving Repr, DecidableEq

/-- Loop body of `refine`: `while (avg < threshold && rounds < maxRounds)`,
with `fuel = maxRounds - rounds` remaining rounds.  `routeFn` is the
uninterpreted LLM call `route(prompt, { model })`.  A replacement whose
average is `>= avg` is accepted and the loop continues; a strictly worse
replacement breaks the loop keeping the previous HTML. -/
def refineGo (routeFn : String → String) (threshold : ℚ) :
    ℕ → String → ScoreRec → ℚ → ℕ → RefineResult
  | 0, current, report, _avg, rounds =>
      ⟨current, report, rounds, decide (rounds > 0)⟩
  | fuel + 1, current, report, avg, rounds =>
      if avg < threshold then
        let refined := routeFn (buildRefinementPrompt current report)
        let newReport := validate refined
        let newAvg := (newReport.conatus + newReport.ratio +
                       newReport.laetitia + newReport.natura) / 4
        if newAvg ≥ avg then
          refineGo routeFn threshold fuel refined newReport newAvg (rounds + 1)
        else
          ⟨current, report, rounds + 1, decide (rounds + 1 > 0)⟩
      else
        ⟨current, report, rounds, decide (rounds > 0)⟩

/-- The refiner `refine(code, opts)` of iterate/refiner.js (source
defaults: `maxRounds = 2`, `threshold = 0.75`).  The LLM call is the
uninterpreted parameter `routeFn`. -/
def refine (routeFn : String → String) (code : String)
    (maxRounds : ℕ) (threshold : ℚ) : RefineResult :=
  let report := validate code
  let avg := (report.conatus + report.ratio + report.laetitia + report.natura) / 4
  refineGo routeFn threshold maxRounds code report avg 0

/-! ## A/B fallback test (src iterate/abtest.js, `fallbackTest`) -/

/-- A generation variant: provider, generated code, and its score. -/
structure Variant where
  provider : String
  code : String
  score : ScoreRec
deriving Repr, DecidableEq

/-- JS `a > b` on possibly-absent numbers: `undefined > x` and
`x > undefined` are `false` (NaN comparison semantics). -/
def jsGtOpt (a b : Option ℚ) : Bool :=
  match a, b with
  | some x, some y => decide (x > y)
  | _, _ => false

/-- JS `a >= b` where `a` may be absent: `undefined >= x` is `false`. -/
def jsGeOpt (a : Option ℚ) (b : ℚ) : Bool :=
  match a with
  | some x => decide (x ≥ b)
  | none => false

/-- The quick two-way `fallbackTest(prompt, options)`: run the primary
provider, and if its total is below the threshold run the fallback and
return whichever result the comparison `score2.total > score.total`
selects.  Note the source computes `score2 = validate(code2)` without
`withTotal`, so `score2.total` is absent.  `routeFn prompt provider`
is the uninterpreted `route(prompt, { provider, context })`. -/
def fallbackTest (routeFn : String → String → String) (prompt : String)
    (primary fallback : String) (threshold : ℚ) : Variant :=
  let code := routeFn prompt primary
  let score := withTotal (validate code)
  let result : Variant := ⟨primary, code, score⟩
  if jsGeOpt score.total threshold then result
  else
    let code2 := routeFn prompt fallback
    let score2 := validate code2
    let result2 : Variant := ⟨fallback, code2, score2⟩
    if jsGtOpt score2.total score.total then result2 else result

/-! ## Iteration chain (src iterate/chain.js) -/

/-- History entry `{ iteration, score, improved }` of the chain. -/
structure ChainHist where
  iteration : ℕ
  score : ℚ
  improved : Bool
deriving Repr, DecidableEq

/-- Result record of `chain`. -/
structure ChainResult where
  html : String
  score : ℚ
  iterations : ℕ
  history : List ChainHist
deriving Repr, DecidableEq

/-- `computeTotal(scores)` of chain.js: average of the four dimensions. -/
def computeTotal (s : ScoreRec) : ℚ :=
  (s.conatus + s.ratio + s.laetitia + s.natura) / 4

/-- `identifyIssues(scores)` of chain.js: hints for axes scoring below
0.7, joined by ". ". -/
def identifyIssues (s : ScoreRec) : String :=
  let issues :=
    (if s.conatus < 0.7 then ["Needs more interactive elements and functional features"] else []) ++
    (if s.ratio < 0.7 then ["Code structure needs improvement — better naming, modularity"] else []) ++
    (if s.laetitia < 0.7 then ["Visual design needs polish — better typography, spacing, color harmony"] else []) ++
    (if s.natura < 0.7 then ["Needs responsive design and accessibility improvements"] else [])
  let issues := if issues.isEmpty then ["General polish and refinement"] else issues
  String.intercalate ". " issues

/-- Refinement loop of `chain`: runs up to `fuel` more iterations,
tracking the best HTML and score seen so far; `refineFn html issues`
is the uninterpreted `refine(html, issues, { model })` call. -/
def chainGo (refineFn : String → String → String) (threshold : ℚ) (patience : ℕ) :
    ℕ → ℕ → String → ScoreRec → String → ℚ → ℕ → List ChainHist → ChainResult
  | 0, _i, _html, _scores, bestHtml, bestScore, _noImprove, history =>
      ⟨bestHtml, bestScore, history.length, history⟩
  | fuel + 1, i, html, scores, bestHtml, bestScore, noImprove, history =>
      let html' := refineFn html (identifyIssues scores)
      let scores' := validate html'
      let score' := computeTotal scores'
      let improved := decide (score' > bestScore)
      let history' := history ++ [⟨i, score', improved⟩]
      let bestHtml' := if improved then html' else bestHtml
      let bestScore' := if improved then score' else bestScore
      let noImprove' := if improved then 0 else noImprove + 1
      if bestScore' ≥ threshold then
        ⟨bestHtml', bestScore', history'.length, history'⟩
      else if noImprove' ≥ patience then
        ⟨bestHtml', bestScore', history'.length, history'⟩
      else
        chainGo refineFn threshold patience fuel (i + 1) html' scores'
          bestHtml' bestScore' noImprove' history'

/-- The iteration chain `chain(prompt, opts)` of chain.js (source
defaults: `maxIterations = 3`, `threshold = 0.85`, `patience = 2`).
`routeFn` is the initial `route(prompt, { model })` call and `refineFn`
the per-iteration refiner call, both uninterpreted. -/
def chain (routeFn : String → String) (refineFn : String → String → String)
    (prompt : String) (maxIterations : ℕ) (threshold : ℚ) (patience : ℕ) :
    ChainResult :=
  let html := routeFn prompt
  let scores := validate html
  let score := computeTotal scores
  let history : List ChainHist := [⟨0, score, true⟩]
  if score ≥ threshold then ⟨html, score, 1, history⟩
  else chainGo refineFn threshold patience maxIterations 1 html scores html score 0 history

/-! ## Cache manager (src/lib/cache/manager.js) -/

/-- A cache entry `{ value, expires, created }`. -/
structure CEntry (V : Type) where
  value : V
  expires : ℤ
  created : ℤ
deriving Repr, DecidableEq

/-- Cache state: insertion-ordered key/entry list (a JS `Map`) plus
counters and configuration. -/
structure CacheState (V : Type) where
  store : List (String × CEntry V)
  hits : ℕ
  misses : ℕ
  evictions : ℕ
  sets : ℕ
  ttl : ℤ
  maxEntries : ℕ
deriving Repr, DecidableEq

/-- JS `Map.prototype.get`: first (unique) binding of the key. -/
def lookupKey {V : Type} (store : List (String × CEntry V)) (k : String) :
    Option (CEntry V) :=
  (store.find? (fun p => p.1 == k)).map (·.2)

/-- JS `Map.prototype.delete`: remove the binding of the key. -/
def eraseKey {V : Type} (store : List (String × CEntry V)) (k : String) :
    List (String × CEntry V) :=
  store.filter (fun p => !(p.1 == k))

/-- JS `Map.prototype.set`: replace in place if present, else append. -/
def mapSet {V : Type} (store : List (String × CEntry V)) (k : String)
    (e : CEntry V) : List (String × CEntry V) :=
  if store.any (fun p => p.1 == k) then
    store.map (fun p => if p.1 == k then (k, e) else p)
  else store ++ [(k, e)]

/-- `CacheManager.get(key)`: miss on absent key; expired entries
(`now > expires`) are deleted and counted as misses; a live hit moves
the entry (unchanged) to the most-recently-used end. -/
def CacheManager.get {V : Type} (s : CacheState V) (now : ℤ) (k : String) :
    Option V × CacheState V :=
  match lookupKey s.store k with
  | none => (none, { s with misses := s.misses + 1 })
  | some e =>
    if now > e.expires then
      (none, { s with store := eraseKey s.store k, misses := s.misses + 1 })
    else
      (some e.value,
       { s with store := eraseKey s.store k ++ [(k, e)], hits := s.hits + 1 })

/-- JS `ttl || this.ttl`: an absent or zero argument falls back to the
instance TTL (0 is falsy). -/
def jsTtlOr (arg : Option ℤ) (dflt : ℤ) : ℤ :=
  match arg with
  | some x => if x = 0 then dflt else x
  | none => dflt

/-- `CacheManager.set(key, value, ttl)`: evict the oldest entry when the
map is full and the key is new, then insert `{ value, expires: now + ttl,
created: now }`. -/
def CacheManager.set {V : Type} (s : CacheState V) (now : ℤ) (k : String)
    (v : V) (ttlArg : Option ℤ) : CacheState V :=
  let s1 :=
    if s.store.length ≥ s.maxEntries ∧ ¬ s.store.any (fun p => p.1 == k) then
      match s.store with
      | [] => { s with evictions := s.evictions + 1 }
      | _ :: rest => { s with store := rest, evictions := s.evictions + 1 }
    else s
  { s1 with
    store := mapSet s1.store k ⟨v, now + jsTtlOr ttlArg s.ttl, now⟩,
    sets := s1.sets + 1 }

/-! ## Rate limiter (src/lib/api/client.js, `RateLimiter.check`) -/

/-- JS `Math.max(a, b)` on integers. -/
def jsMaxZ (a b : ℤ) : ℤ :=
  if a ≤ b then b else a

/-- Result of one `RateLimiter.check` call. -/
structure RLResult where
  allowed : Bool
  remaining : ℤ
  resetMs : ℤ
deriving Repr, DecidableEq

/-- `RateLimiter.check(ip)` for one IP's timestamp list: drop timestamps
at or before `now - windowMs`, grant iff fewer than `maxRequests`
remain, record the grant, and report `remaining` and `resetMs`. -/
def RateLimiter.check (w : ℤ) (m : ℕ) (now : ℤ) (hits : List ℤ) :
    RLResult × List ℤ :=
  let h2 := hits.filter (fun t => t > now - w)
  let allowed := decide (h2.length < m)
  let h3 := if allowed then h2 ++ [now] else h2
  (⟨allowed, jsMaxZ 0 ((m : ℤ) - h3.length),
    if h3.length > 0 then h3.headD 0 + w - now else 0⟩, h3)

/-- Run a sequence of checks from a given state, returning the final
state and the list of granted timestamps. -/
def RateLimiter.run (w : ℤ) (m : ℕ) : List ℤ → List ℤ → List ℤ × List ℤ
  | [], hits => (hits, [])
  | now :: rest, hits =>
    let step := RateLimiter.check w m now hits
    let tail := RateLimiter.run w m rest step.2
    (tail.1, (if step.1.allowed then [now] else []) ++ tail.2)

/-- The server's rate-limit gate in `createApiServer`: a denied check is
answered immediately with status 429 and body `retryAfterMs = resetMs`;
an allowed check proceeds (`none`). -/
def serverRateLimit (res : RLResult) : Option (ℕ × ℤ) :=
  if res.allowed then none else some (429, res.resetMs)

/-! ## Hook bus (src/lib/hooks/lifecycle.js, `run`) -/

/-- A captured hook failure `{ hook, handler, error }`. -/
structure HookErr where
  hook : String
  handler : String
  message : String
deriving Repr, DecidableEq

/-- Pipeline state threaded through hooks: the captured `_hookErrors`
list, the `_currentError`/`_failedHook` markers set for `onError`
runs, and an abstract payload for everything else on the object. -/
structure HState (σ : Type) where
  hookErrors : List HookErr
  currentError : Option String
  failedHook : Option String
  payload : σ
deriving Repr, DecidableEq

/-- Outcome of one handler call: a JS handler may return nothing
(state kept), return a replacement state, or throw. -/
inductive HRes (σ : Type) where
  | ok : Option (HState σ) → HRes σ
  | err : String → HRes σ

/-- A registered handler: `{ name, fn }`. -/
abbrev Handler (σ : Type) := String × (HState σ → HRes σ)

/-- `run('onError', state)`: handlers at the `onError` point run in
order; a throwing handler is captured into `_hookErrors` and execution
continues, with no nested `onError` dispatch (the failing point is
`onError` itself).  Returns the final state and the invocation trace. -/
def runOnErrorList {σ : Type} : List (Handler σ) → HState σ →
    HState σ × List (String × String)
  | [], st => (st, [])
  | (nm, fn) :: rest, st =>
    match fn st with
    | .ok none =>
        let tail := runOnErrorList rest st
        (tail.1, ("onError", nm) :: tail.2)
    | .ok (some s1) =>
        let tail := runOnErrorList rest s1
        (tail.1, ("onError", nm) :: tail.2)
    | .err msg =>
        let st1 := { st with hookErrors := st.hookErrors ++ [⟨"onError", nm, msg⟩] }
        let tail := runOnErrorList rest st1
        (tail.1, ("onError", nm) :: tail.2)

/-- `run(hookName, state)`: handlers run in order; a non-null returned
state replaces the current one; a thrown error is captured into
`_hookErrors` and, unless the point is `onError` itself, the `onError`
handlers are invoked on a copy of the state (their result is not fed
back).  Returns the final state and the invocation trace. -/
def runList {σ : Type} (point : String) (onErr : List (Handler σ)) :
    List (Handler σ) → HState σ → HState σ × List (String × String)
  | [], st => (st, [])
  | (nm, fn) :: rest, st =>
    match fn st with
    | .ok none =>
        let tail := runList point onErr rest st
        (tail.1, (point, nm) :: tail.2)
    | .ok (some s1) =>
        let tail := runList point onErr rest s1
        (tail.1, (point, nm) :: tail.2)
    | .err msg =>
        let st1 := { st with hookErrors := st.hookErrors ++ [⟨point, nm, msg⟩] }
        let nestedTr :=
          if point ≠ "onError" then
            (runOnErrorList onErr
              { st1 with currentError := some msg, failedHook := some point }).2
          else []
        let tail := runList point onErr rest st1
        (tail.1, (point, nm) :: (nestedTr ++ tail.2))

/-- Top-level `run(hookName, state)` over a registry mapping points to
their handler lists. -/
def runHooks {σ : Type} (registry : String → List (Handler σ))
    (point : String) (st : HState σ) : HState σ × List (String × String) :=
  runList point (registry "onError") (registry point) st

/-- A handler preserves captured errors when any replacement state it
returns keeps the entries of `_hookErrors`. -/
def keepsErrors {σ : Type} (fn : HState σ → HRes σ) : Prop :=
  ∀ s s', fn s = .ok (some s') → ∀ e, e ∈ s.hookErrors → e ∈ s'.hookErrors

/-! ## Gene tokenizer (src iterate/genetic.js, `toGenes`) -/

/-- Sentence-ending characters of the split lookbehind: `.`, `!`, `?`,
or a newline. -/
def isSentEnd (c : Char) : Bool :=
  c == '.' || c == '!' || c == '?' || c == '\n'

/-- Linear scan implementing the JS split on the regex "whitespace run
preceded by a sentence-ending character": leftmost match, greedy
whitespace consumption, separators dropped. -/
def sentSplitGo : Option Char → Bool → List Char → List String → List Char →
    List String
  | _prev, _inSep, cur, acc, [] => acc ++ [⟨cur⟩]
  | _prev, true, cur, acc, c :: cs =>
      if isJsWs c then sentSplitGo (some c) true cur acc cs
      else sentSplitGo (some c) false [c] acc cs
  | prev, false, cur, acc, c :: cs =>
      if isJsWs c && (match prev with | some p => isSentEnd p | none => false) then
        sentSplitGo (some c) true [] (acc ++ [⟨cur⟩]) cs
      else sentSplitGo (some c) false (cur ++ [c]) acc cs

/-- The JS `prompt.split(...)` with the sentence-boundary regex. -/
def jsSentSplit (s : String) : List String :=
  sentSplitGo none false [] [] s.data

/-- `toGenes(prompt)`: split at sentence boundaries, keep only segments
whose trimmed length exceeds 5. -/
def toGenes (prompt : String) : List String :=
  (jsSentSplit prompt).filter (fun g => jsLen (jsTrim g) > 5)

/-! ## Concrete stub routers and states for witnesses and counterexamples -/

/-- Stub router for the fallback-test failing input: the primary
provider produces an empty generation, the fallback a scoring one. -/
def cexRoute : String → String → String := fun _ provider =>
  if provider == "claude" then "<input" else ""

/-- Constant stub router: every refinement generation returns "y". -/
def constRoute : String → String := fun _ => "y"

/-- Concrete one-entry cache state for the C6 witness. -/
def cacheW : CacheState ℕ :=
  ⟨[("a", ⟨5, 100, 0⟩)], 0, 0, 0, 0, 1000, 500⟩

/-- Window membership test for the granted-requests bound: `t` lies in
the half-open window `(T, T + w]`. -/
def inWindow (w T t : ℤ) : Bool := decide (T < t ∧ t ≤ T + w)

/-- A handler that always throws (for the C8 witness). -/
def hookFailFn : HState Unit → HRes Unit := fun _ => .err "boom"

/-- A handler that returns nothing, leaving the state as-is. -/
def hookOkFn : HState Unit → HRes Unit := fun _ => .ok none

/-- An empty initial pipeline state over a unit payload. -/
def hookSt : HState Unit := ⟨[], none, none, ()⟩

/-! ## Field-access lemmas for the validator -/

theorem validate_conatus (code : String) :
    (validate code).conatus = clampAxis (conatusRaw code) := rfl

theorem validate_ratio (code : String) :
    (validate code).ratio = clampAxis (ratioRaw code) := rfl

theorem validate_laetitia (code : String) :
    (validate code).laetitia = clampAxis (laetitiaRaw code) := rfl

theorem validate_natura (code : String) :
    (validate code).natura = clampAxis (naturaRaw code) := rfl

theorem validate_total_none (code : String) :
    (validate code).total = none := rfl

/-! ## Axis bound lemmas -/

theorem jsRound10_nonneg {x : ℚ} (h : 0 ≤ x) : 0 ≤ jsRound10 x := by
  unfold jsRound10
  have h1 : (0 : ℚ) ≤ x * 10 + 1/2 := by linarith
  have h2 : (0 : ℤ) ≤ ⌊x * 10 + 1/2⌋ := Int.floor_nonneg.mpr h1
  have h3 : (0 : ℚ) ≤ ((⌊x * 10 + 1/2⌋ : ℤ) : ℚ) := by exact_mod_cast h2
  linarith

theorem clampAxis_nonneg {x : ℚ} (h : 0 ≤ x) : 0 ≤ clampAxis x := by
  unfold clampAxis jsMin
  split_ifs <;> [norm_num; exact jsRound10_nonneg h]

theorem clampAxis_le_one (x : ℚ) : clampAxis x ≤ 1 := by
  unfold clampAxis jsMin
  split_ifs with h
  · exact le_refl 1
  · linarith

theorem conatusRaw_nonneg (code : String) : 0 ≤ conatusRaw code := by
  unfold conatusRaw; split_ifs <;> norm_num

theorem ratioRaw_nonneg (code : String) : 0 ≤ ratioRaw code := by
  unfold ratioRaw; split_ifs <;> norm_num

theorem laetitiaRaw_nonneg (code : String) : 0 ≤ laetitiaRaw code := by
  unfold laetitiaRaw; split_ifs <;> norm_num

theorem naturaRaw_nonneg (code : String) : 0 ≤ naturaRaw code := by
  unfold naturaRaw; split_ifs <;> norm_num

/-- C4: for every HTML string, each of the four axis scores returned by
`validate` lies in `[0,1]`, and the grade is exactly the spec's piecewise
function (§3) of the mean of the four returned axis scores. -/
theorem validate_axes_bounded_grade_spec (code : String) :
    (0 ≤ (validate code).conatus ∧ (validate code).conatus ≤ 1) ∧
    (0 ≤ (validate code).ratio ∧ (validate code).ratio ≤ 1) ∧
    (0 ≤ (validate code).laetitia ∧ (validate code).laetitia ≤ 1) ∧
    (0 ≤ (validate code).natura ∧ (validate code).natura ≤ 1) ∧
    (validate code).grade =
      specGradeOfTotal (((validate code).conatus + (validate code).ratio +
        (validate code).laetitia + (validate code).natura) / 4) := by
  refine ⟨⟨?_, ?_⟩, ⟨?_, ?_⟩, ⟨?_, ?_⟩, ⟨?_, ?_⟩, ?_⟩
  · exact validate_conatus code ▸ clampAxis_nonneg (conatusRaw_nonneg code)
  · exact validate_conatus code ▸ clampAxis_le_one _
  · exact validate_ratio code ▸ clampAxis_nonneg (ratioRaw_nonneg code)
  · exact validate_ratio code ▸ clampAxis_le_one _
  · exact validate_laetitia code ▸ clampAxis_nonneg (laetitiaRaw_nonneg code)
  · exact validate_laetitia code ▸ clampAxis_le_one _
  · exact validate_natura code ▸ clampAxis_nonneg (naturaRaw_nonneg code)
  · exact validate_natura code ▸ clampAxis_le_one _
  · rfl

/-- C2 counterexample: `validate` returns a record with no `total` field
(the claim says every `Validate(h)` result includes `total = mean`). -/
theorem validate_total_absent_cex : (validate "").total = none := rfl

/-- C2 amended: `validate` itself returns no `total`; the caller-side
helper `withTotal` is what adds `total`, and it sets it to exactly the
mean of the four returned axis scores. -/
theorem withTotal_validate_total_eq_mean (h : String) :
    (validate h).total = none ∧
    (withTotal (validate h)).total =
      some (((validate h).conatus + (validate h).ratio +
        (validate h).laetitia + (validate h).natura) / 4) :=
  ⟨rfl, rfl⟩

/-! ## Concrete evaluation helpers for the rational arithmetic -/

theorem jsRound10_eq {x : ℚ} (n : ℤ) (h1 : (n : ℚ) ≤ x * 10 + 1/2)
    (h2 : x * 10 + 1/2 < (n : ℚ) + 1) : jsRound10 x = (n : ℚ) / 10 := by
  unfold jsRound10
  have hf : ⌊x * 10 + 1/2⌋ = n := by
    rw [Int.floor_eq_iff]
    exact ⟨h1, by exact_mod_cast h2⟩
  rw [hf]

theorem clampAxis_zero : clampAxis 0 = 0 := by
  unfold clampAxis jsMin
  rw [jsRound10_eq 0 (by norm_num) (by norm_num)]
  norm_num

theorem clampAxis_point3 : clampAxis 0.3 = 0.3 := by
  unfold clampAxis jsMin
  rw [jsRound10_eq 3 (by norm_num) (by norm_num)]
  norm_num

theorem computeTotal_validate_empty : computeTotal (validate "") = 0 := by
  have hc : conatusRaw "" = 0 := by simp +decide [conatusRaw]
  have hr : ratioRaw "" = 0 := by simp +decide [ratioRaw]
  have hl : laetitiaRaw "" = 0 := by simp +decide [laetitiaRaw]
  have hn : naturaRaw "" = 0 := by simp +decide [naturaRaw]
  rw [computeTotal, validate_conatus, validate_ratio, validate_laetitia,
    validate_natura, hc, hr, hl, hn, clampAxis_zero]
  norm_num

theorem computeTotal_validate_x : computeTotal (validate "x") = 0 := by
  have hc : conatusRaw "x" = 0 := by simp +decide [conatusRaw]
  have hr : ratioRaw "x" = 0 := by simp +decide [ratioRaw]
  have hl : laetitiaRaw "x" = 0 := by simp +decide [laetitiaRaw]
  have hn : naturaRaw "x" = 0 := by simp +decide [naturaRaw]
  rw [computeTotal, validate_conatus, validate_ratio, validate_laetitia,
    validate_natura, hc, hr, hl, hn, clampAxis_zero]
  norm_num

theorem computeTotal_validate_y : computeTotal (validate "y") = 0 := by
  have hc : conatusRaw "y" = 0 := by simp +decide [conatusRaw]
  have hr : ratioRaw "y" = 0 := by simp +decide [ratioRaw]
  have hl : laetitiaRaw "y" = 0 := by simp +decide [laetitiaRaw]
  have hn : naturaRaw "y" = 0 := by simp +decide [naturaRaw]
  rw [computeTotal, validate_conatus, validate_ratio, validate_laetitia,
    validate_natura, hc, hr, hl, hn, clampAxis_zero]
  norm_num

theorem computeTotal_validate_input_tag :
    computeTotal (validate "<input") = 3/40 := by
  have hc : conatusRaw "<input" = 0.3 := by simp +decide [conatusRaw]
  have hr : ratioRaw "<input" = 0 := by simp +decide [ratioRaw]
  have hl : laetitiaRaw "<input" = 0 := by simp +decide [laetitiaRaw]
  have hn : naturaRaw "<input" = 0 := by simp +decide [naturaRaw]
  rw [computeTotal, validate_conatus, validate_ratio, validate_laetitia,
    validate_natura, hc, hr, hl, hn, clampAxis_zero, clampAxis_point3]
  norm_num

/-! ## C1: the fallback test -/

/-- C1 (code bug): with a primary generation scoring total 0 (below the
0.7 threshold) and a fallback generation whose mean axis score is
strictly higher, `fallbackTest` still returns the primary result: the
source computes `score2 = validate(code2)` without `withTotal`, so
`score2.total` is absent and the JS comparison
`score2.total > score.total` is always false. -/
theorem fallbackTest_ignores_better_fallback :
    computeTotal (validate (cexRoute "p" "claude")) >
      computeTotal (validate (cexRoute "p" "gemini")) ∧
    (validate (cexRoute "p" "claude")).total = none ∧
    fallbackTest cexRoute "p" "gemini" "claude" 0.7 =
      ⟨"gemini", cexRoute "p" "gemini",
        withTotal (validate (cexRoute "p" "gemini"))⟩ := by
  have hg : cexRoute "p" "gemini" = "" := rfl
  have hc : cexRoute "p" "claude" = "<input" := rfl
  refine ⟨?_, ?_, ?_⟩
  · rw [hg, hc, computeTotal_validate_input_tag, computeTotal_validate_empty]
    norm_num
  · rw [hc]; exact validate_total_none _
  · have hge : jsGeOpt (withTotal (validate (cexRoute "p" "gemini"))).total 0.7 = false := by
      have ht : (withTotal (validate (cexRoute "p" "gemini"))).total =
          some (computeTotal (validate "")) := by rw [hg]; rfl
      rw [ht, computeTotal_validate_empty]
      simp only [jsGeOpt, decide_eq_false_iff_not]
      norm_num
    have hgt : jsGtOpt (validate (cexRoute "p" "claude")).total
        (withTotal (validate (cexRoute "p" "gemini"))).total = false := by
      rw [hc, validate_total_none]; rfl
    simp only [fallbackTest]
    rw [hge]
    simp only [Bool.false_eq_true, if_false]
    rw [hgt]
    simp

/-! ## C3: the refinement loop accept condition -/

/-- One accepted round of the refiner loop: when the current average is
below the threshold and the replacement scores at least as high, the
replacement becomes the current HTML and the loop continues. -/
theorem refineGo_succ_accept (routeFn : String → String)
    (threshold avg : ℚ) (fuel rounds : ℕ) (current : String)
    (report : ScoreRec) (hrun : avg < threshold)
    (hcmp : computeTotal (validate (routeFn (buildRefinementPrompt current report))) ≥ avg) :
    refineGo routeFn threshold (fuel + 1) current report avg rounds =
      refineGo routeFn threshold fuel
        (routeFn (buildRefinementPrompt current report))
        (validate (routeFn (buildRefinementPrompt current report)))
        (computeTotal (validate (routeFn (buildRefinementPrompt current report))))
        (rounds + 1) := by
  simp only [computeTotal] at hcmp
  simp only [refineGo, computeTotal]
  rw [if_pos hrun, if_pos hcmp]

/-- One rejected round of the refiner loop: a strictly worse replacement
stops the loop, keeping the current HTML and report. -/
theorem refineGo_succ_reject (routeFn : String → String)
    (threshold avg : ℚ) (fuel rounds : ℕ) (current : String)
    (report : ScoreRec) (hrun : avg < threshold)
    (hcmp : computeTotal (validate (routeFn (buildRefinementPrompt current report))) < avg) :
    refineGo routeFn threshold (fuel + 1) current report avg rounds =
      ⟨current, report, rounds + 1, true⟩ := by
  simp only [computeTotal] at hcmp
  simp only [refineGo]
  rw [if_pos hrun, if_neg (not_le.mpr hcmp)]
  simp

/-- C3 counterexample: starting from "x" (average 0) the replacement "y"
has an equal average, yet `refine` accepts it (the source tests
`newAvg >= avg`, not a strict `>`): the returned code is "y" and the
loop ran both rounds instead of stopping at the first. -/
theorem refine_accepts_equal_cex :
    computeTotal (validate "y") = computeTotal (validate "x") ∧
    refine constRoute "x" 2 0.75 = ⟨"y", validate "y", 2, true⟩ := by
  have hx : computeTotal (validate "x") = 0 := computeTotal_validate_x
  have hy : computeTotal (validate "y") = 0 := computeTotal_validate_y
  have hcy : ∀ p : String, constRoute p = "y" := fun _ => rfl
  constructor
  · rw [hx, hy]
  · have h0 : refine constRoute "x" 2 0.75 =
        refineGo constRoute 0.75 2 "x" (validate "x")
          (computeTotal (validate "x")) 0 := rfl
    rw [h0, hx]
    have s1 := refineGo_succ_accept constRoute 0.75 0 1 0 "x" (validate "x")
      (by norm_num) (by rw [hcy, hy])
    rw [hcy, hy] at s1
    have s2 := refineGo_succ_accept constRoute 0.75 0 0 1 "y" (validate "y")
      (by norm_num) (by rw [hcy, hy])
    rw [hcy, hy] at s2
    calc refineGo constRoute 0.75 2 "x" (validate "x") 0 0
        = refineGo constRoute 0.75 1 "y" (validate "y") 0 1 := s1
      _ = refineGo constRoute 0.75 0 "y" (validate "y") 0 2 := s2
      _ = ⟨"y", validate "y", 2, true⟩ := rfl

/-- C3 amended: in every round of the refinement loop the replacement is
accepted iff its average is greater than or equal to the current average
(non-strict); on a strictly worse replacement the loop stops keeping the
current HTML (and its round counter incremented). -/
theorem refine_round_accept_iff_nonstrict (routeFn : String → String)
    (threshold avg : ℚ) (fuel rounds : ℕ) (current : String)
    (report : ScoreRec) (hrun : avg < threshold) :
    (computeTotal (validate (routeFn (buildRefinementPrompt current report))) ≥ avg →
      refineGo routeFn threshold (fuel + 1) current report avg rounds =
        refineGo routeFn threshold fuel
          (routeFn (buildRefinementPrompt current report))
          (validate (routeFn (buildRefinementPrompt current report)))
          (computeTotal (validate (routeFn (buildRefinementPrompt current report))))
          (rounds + 1)) ∧
    (computeTotal (validate (routeFn (buildRefinementPrompt current report))) < avg →
      refineGo routeFn threshold (fuel + 1) current report avg rounds =
        ⟨current, report, rounds + 1, true⟩) :=
  ⟨fun hcmp => refineGo_succ_accept routeFn threshold avg fuel rounds current report hrun hcmp,
   fun hcmp => refineGo_succ_reject routeFn threshold avg fuel rounds current report hrun hcmp⟩

/-- C3 amended witness: the acceptance characterization applied at the
concrete equal-average input of the counterexample. -/
theorem refine_round_accept_iff_nonstrict_witness :
    (0 : ℚ) < 0.75 ∧
    ((computeTotal (validate (constRoute (buildRefinementPrompt "x" (validate "x")))) ≥ 0 →
      refineGo constRoute 0.75 1 "x" (validate "x") 0 0 =
        refineGo constRoute 0.75 0
          (constRoute (buildRefinementPrompt "x" (validate "x")))
          (validate (constRoute (buildRefinementPrompt "x" (validate "x"))))
          (computeTotal (validate (constRoute (buildRefinementPrompt "x" (validate "x")))))
          1) ∧
    (computeTotal (validate (constRoute (buildRefinementPrompt "x" (validate "x")))) < 0 →
      refineGo constRoute 0.75 1 "x" (validate "x") 0 0 =
        ⟨"x", validate "x", 1, true⟩)) :=
  ⟨by norm_num,
   refine_round_accept_iff_nonstrict constRoute 0.75 0 0 0 "x" (validate "x") (by norm_num)⟩

/-! ## C9: gene tokenization -/

/-- C9 counterexample: the split of "hi there. abcde" yields the gene
"abcde", already trimmed, of length exactly 5 — and `toGenes` drops it
(the source keeps only genes with trimmed length strictly greater
than 5, so a 5-character gene is not kept). -/
theorem toGenes_five_char_gene_dropped_cex :
    jsSentSplit "hi there. abcde" = ["hi there.", "abcde"] ∧
    jsTrim "abcde" = "abcde" ∧
    jsLen "abcde" = 5 ∧
    toGenes "hi there. abcde" = ["hi there."] := by
  refine ⟨?_, ?_, ?_, ?_⟩ <;> rfl

/-- C9 amended: `toGenes` splits at sentence boundaries and drops
exactly the genes whose trimmed length is at most 5 characters — a gene
is kept iff its trimmed length strictly exceeds 5. -/
theorem toGenes_mem_iff (p g : String) :
    g ∈ toGenes p ↔ (g ∈ jsSentSplit p ∧ 5 < jsLen (jsTrim g)) := by
  simp [toGenes, List.mem_filter]

/-! ## C5: the iteration chain never returns worse than iteration 0 -/

/-- The chain loop's returned score is at least the best score it
started with. -/
theorem chainGo_score_ge (refineFn : String → String → String)
    (threshold : ℚ) (patience : ℕ) :
    ∀ (fuel i : ℕ) (html : String) (scores : ScoreRec) (bestHtml : String)
      (bestScore : ℚ) (noImprove : ℕ) (history : List ChainHist),
      bestScore ≤ (chainGo refineFn threshold patience fuel i html scores
        bestHtml bestScore noImprove history).score := by
  intro fuel
  induction fuel with
  | zero => intro i html scores bestHtml bestScore noImprove history; exact le_refl _
  | succ n ih =>
    intro i html scores bestHtml bestScore noImprove history
    simp only [chainGo]
    by_cases himp : computeTotal (validate (refineFn html (identifyIssues scores))) > bestScore
    · have hbs : bestScore ≤ computeTotal (validate (refineFn html (identifyIssues scores))) :=
        le_of_lt himp
      simp only [decide_eq_true himp, if_true]
      split_ifs
      · exact hbs
      · exact hbs
      · exact le_trans hbs (ih _ _ _ _ _ _ _)
    · simp only [decide_eq_false himp, Bool.false_eq_true, if_false]
      split_ifs
      · exact le_refl _
      · exact le_refl _
      · exact ih _ _ _ _ _ _ _

/-- C5: for every prompt, options, and behaviour of the LLM calls, the
iteration chain's returned score is at least the score of the initial
(iteration-0) generation. -/
theorem chain_final_score_ge_initial (routeFn : String → String)
    (refineFn : String → String → String) (prompt : String)
    (maxIterations : ℕ) (threshold : ℚ) (patience : ℕ) :
    computeTotal (validate (routeFn prompt)) ≤
      (chain routeFn refineFn prompt maxIterations threshold patience).score := by
  simp only [chain]
  split_ifs
  · exact le_refl _
  · exact chainGo_score_ge refineFn threshold patience maxIterations 1
      (routeFn prompt) (validate (routeFn prompt)) (routeFn prompt)
      (computeTotal (validate (routeFn prompt))) 0 _

/-! ## C6: cache expiry and LRU renewal -/

/-- After deleting a key, lookup of that key fails. -/
theorem lookupKey_eraseKey {V : Type} (store : List (String × CEntry V))
    (k : String) : lookupKey (eraseKey store k) k = none := by
  unfold lookupKey eraseKey
  rw [Option.map_eq_none', List.find?_eq_none]
  intro p hp
  have hmem := List.of_mem_filter hp
  simp at hmem ⊢
  exact hmem

/-- Lookup of a freshly appended binding succeeds when the key was
absent before. -/
theorem lookupKey_append_last {V : Type} (store : List (String × CEntry V))
    (k : String) (e : CEntry V) (h : lookupKey store k = none) :
    lookupKey (store ++ [(k, e)]) k = some e := by
  unfold lookupKey at *
  rw [List.find?_append]
  have hnone : store.find? (fun p => p.1 == k) = none := by
    cases hf : store.find? (fun p => p.1 == k) with
    | none => rfl
    | some p => rw [hf] at h; simp at h
  rw [hnone]
  simp

/-- C6: a cache `get` strictly after the entry's expiry instant returns
absent and removes the entry; a `get` at or before the expiry instant
returns the stored value, moves the unchanged entry (same expiry) to the
most-recently-used end of the store. -/
theorem cache_get_expiry_and_lru {V : Type} (s : CacheState V) (k : String)
    (now : ℤ) (e : CEntry V) (hfind : lookupKey s.store k = some e) :
    (now > e.expires →
      (CacheManager.get s now k).1 = none ∧
      lookupKey (CacheManager.get s now k).2.store k = none) ∧
    (¬ now > e.expires →
      (CacheManager.get s now k).1 = some e.value ∧
      (CacheManager.get s now k).2.store = eraseKey s.store k ++ [(k, e)] ∧
      lookupKey (CacheManager.get s now k).2.store k = some e) := by
  constructor <;> intro hnow
  · simp only [CacheManager.get, hfind, if_pos hnow]
    exact ⟨trivial, lookupKey_eraseKey _ _⟩
  · simp only [CacheManager.get, hfind, if_neg hnow]
    exact ⟨trivial, trivial, lookupKey_append_last _ _ _ (lookupKey_eraseKey _ _)⟩

/-- C6 witness: the expiry/LRU theorem applied to a concrete cache
holding one entry with expiry 100, queried at time 50. -/
theorem cache_get_expiry_and_lru_witness :
    lookupKey cacheW.store "a" = some ⟨5, 100, 0⟩ ∧
    (((50 : ℤ) > (100 : ℤ) →
      (CacheManager.get cacheW 50 "a").1 = none ∧
      lookupKey (CacheManager.get cacheW 50 "a").2.store "a" = none) ∧
    (¬ (50 : ℤ) > (100 : ℤ) →
      (CacheManager.get cacheW 50 "a").1 = some (⟨5, 100, 0⟩ : CEntry ℕ).value ∧
      (CacheManager.get cacheW 50 "a").2.store =
        eraseKey cacheW.store "a" ++ [("a", ⟨5, 100, 0⟩)] ∧
      lookupKey (CacheManager.get cacheW 50 "a").2.store "a" =
        some ⟨5, 100, 0⟩)) :=
  ⟨rfl, cache_get_expiry_and_lru cacheW "a" 50 ⟨5, 100, 0⟩ rfl⟩

/-! ## C10: a denied rate-limit check records nothing -/

/-- C10: a denied check leaves the IP's state equal to its old
timestamps with only the expired ones dropped — no new timestamp is
recorded — and therefore once every recorded timestamp is a full window
in the past the same IP is granted again, however many denied checks
happened in between. -/
theorem rateLimiter_denied_frame (w : ℤ) (m : ℕ) (now : ℤ) (hits : List ℤ)
    (hden : (RateLimiter.check w m now hits).1.allowed = false) :
    (RateLimiter.check w m now hits).2 = hits.filter (fun t => t > now - w) ∧
    (∀ t ∈ (RateLimiter.check w m now hits).2, t ∈ hits) ∧
    (∀ now' : ℤ, 0 < m → (∀ t ∈ hits, t ≤ now' - w) →
      (RateLimiter.check w m now' (RateLimiter.check w m now hits).2).1.allowed
        = true) := by
  have hdec : decide ((hits.filter (fun t => t > now - w)).length < m) = false := hden
  have hstate : (RateLimiter.check w m now hits).2 =
      hits.filter (fun t => t > now - w) := by
    simp only [RateLimiter.check, hdec, Bool.false_eq_true, if_false]
  refine ⟨hstate, ?_, ?_⟩
  · intro t ht
    rw [hstate] at ht
    exact List.mem_of_mem_filter ht
  · intro now' hm hb
    rw [hstate]
    have hnil : (hits.filter (fun t => t > now - w)).filter
        (fun t => t > now' - w) = [] := by
      rw [List.filter_eq_nil_iff]
      intro t ht
      have h1 : t ∈ hits := List.mem_of_mem_filter ht
      have h2 : t ≤ now' - w := hb t h1
      simp
      linarith
    simp only [RateLimiter.check, hnil]
    simp [hm]

/-! ## C7: rate limiter grants at most maxRequests per window -/

theorem length_filter_mono {α : Type} {p q : α → Bool} :
    ∀ l : List α, (∀ x ∈ l, p x = true → q x = true) →
      (l.filter p).length ≤ (l.filter q).length := by
  intro l
  induction l with
  | nil => intro _; simp
  | cons a t ih =>
    intro h
    have ht : ∀ x ∈ t, p x = true → q x = true :=
      fun x hx => h x (List.mem_cons_of_mem a hx)
    by_cases hp : p a = true
    · rw [List.filter_cons_of_pos hp, List.filter_cons_of_pos (h a (List.mem_cons_self a t) hp)]
      simpa using ih ht
    · rw [List.filter_cons_of_neg (by simpa using hp)]
      refine le_trans (ih ht) ?_
      rw [List.filter_cons]
      split_ifs <;> simp

theorem filter_filter_window (H : List ℤ) (p now w : ℤ) (hpn : p ≤ now) :
    (H.filter (fun t => t > p - w)).filter (fun t => t > now - w)
      = H.filter (fun t => t > now - w) := by
  rw [List.filter_filter]
  apply List.filter_congr
  intro t _
  by_cases h : t > now - w
  · have h2 : t > p - w := by linarith
    simp [h, h2]
  · simp [h]

theorem rlRun_granted_bound (w : ℤ) (m : ℕ) (hw : 0 < w) :
    ∀ (ts : List ℤ) (H : List ℤ) (p : ℤ),
      ts.Sorted (· ≤ ·) →
      (∀ t ∈ ts, p ≤ t) →
      (∀ t ∈ H, t ≤ p) →
      (∀ T : ℤ, ((H.filter (inWindow w T)).length ≤ m)) →
      ∀ T : ℤ,
        (((H ++ (RateLimiter.run w m ts (H.filter (fun t => t > p - w))).2).filter
            (inWindow w T)).length ≤ m) := by
  intro ts
  induction ts with
  | nil =>
    intro H p _ _ _ hbound T
    simpa [RateLimiter.run] using hbound T
  | cons now rest ih =>
    intro H p hsort hts hH hbound T
    have hpnow : p ≤ now := hts now (List.mem_cons_self _ _)
    have hrest_sorted : rest.Sorted (· ≤ ·) := (List.sorted_cons.mp hsort).2
    have hrest_ge : ∀ t ∈ rest, now ≤ t := (List.sorted_cons.mp hsort).1
    have hff : (H.filter (fun t => t > p - w)).filter (fun t => t > now - w)
        = H.filter (fun t => t > now - w) := filter_filter_window H p now w hpnow
    simp only [RateLimiter.run, RateLimiter.check, hff]
    by_cases hall : (H.filter (fun t => t > now - w)).length < m
    · -- allowed: the grant is recorded
      simp only [decide_eq_true hall, if_true]
      have hstate : (H.filter (fun t => t > now - w)) ++ [now]
          = (H ++ [now]).filter (fun t => t > now - w) := by
        rw [List.filter_append]
        congr 1
        have : now > now - w := by linarith
        simp [this]
      have hH' : ∀ t ∈ H ++ [now], t ≤ now := by
        intro t ht
        rcases List.mem_append.mp ht with h1 | h1
        · exact le_trans (hH t h1) hpnow
        · simp at h1; omega
      have hbound' : ∀ T' : ℤ, (((H ++ [now]).filter (inWindow w T')).length ≤ m) := by
        intro T'
        rw [List.filter_append]
        by_cases hin : inWindow w T' now = true
        · have hwin : T' < now ∧ now ≤ T' + w := by
            simpa [inWindow] using hin
          have hmono : (H.filter (inWindow w T')).length ≤
              (H.filter (fun t => t > now - w)).length := by
            apply length_filter_mono
            intro x _ hx
            have hx' : T' < x ∧ x ≤ T' + w := by simpa [inWindow] using hx
            simp
            omega
          rw [List.length_append]
          have hone : (([now] : List ℤ).filter (inWindow w T')).length = 1 := by
            simp [hin]
          omega
        · have hzero : (([now] : List ℤ).filter (inWindow w T')).length = 0 := by
            simp [List.filter, hin]
          rw [List.length_append, hzero]
          simpa using hbound T'
      have := ih (H ++ [now]) now hrest_sorted hrest_ge hH' hbound' T
      rw [hstate]
      simpa using this
    · -- denied: nothing recorded
      simp only [decide_eq_false hall, Bool.false_eq_true, if_false]
      have hbound' : ∀ T' : ℤ, ((H.filter (inWindow w T')).length ≤ m) := hbound
      have hH2 : ∀ t ∈ H, t ≤ now := fun t ht => le_trans (hH t ht) hpnow
      have := ih H now hrest_sorted hrest_ge hH2 hbound' T
      simpa using this

/-- C7: starting from an empty per-IP state, any window `(T, T + w]`
contains at most `maxRequests` granted timestamps of a (time-ordered)
check sequence; and a denied check is answered with status 429 and a
strictly positive `retryAfterMs`. -/
theorem rateLimiter_window_bound_and_deny (w : ℤ) (m : ℕ) (ts : List ℤ)
    (T now : ℤ) (hits : List ℤ)
    (hw : 0 < w) (hsort : ts.Sorted (· ≤ ·)) (hm : 0 < m) :
    (((RateLimiter.run w m ts []).2.filter (inWindow w T)).length ≤ m) ∧
    ((RateLimiter.check w m now hits).1.allowed = false →
      serverRateLimit (RateLimiter.check w m now hits).1 =
        some (429, (RateLimiter.check w m now hits).1.resetMs) ∧
      0 < (RateLimiter.check w m now hits).1.resetMs) := by
  constructor
  · cases ts with
    | nil => simp [RateLimiter.run]
    | cons t0 rest =>
      have h0 : ∀ t ∈ (t0 :: rest), t0 ≤ t := by
        intro t ht
        rcases List.mem_cons.mp ht with h | h
        · omega
        · exact List.rel_of_sorted_cons hsort t h
      have hstart := rlRun_granted_bound w m hw (t0 :: rest) [] t0 hsort h0
        (by simp) (by simp) T
      simpa using hstart
  · intro hden
    have hdec : decide ((hits.filter (fun t => t > now - w)).length < m) = false := hden
    have hlen : ¬ ((hits.filter (fun t => t > now - w)).length < m) :=
      of_decide_eq_false hdec
    have hne : hits.filter (fun t => t > now - w) ≠ [] := by
      intro hnil
      rw [hnil] at hlen
      simp at hlen
      omega
    constructor
    · simp [serverRateLimit, hden]
    · obtain ⟨a, t2, hcons⟩ := List.exists_cons_of_ne_nil hne
      have hmem : a ∈ hits.filter (fun t => t > now - w) := by
        rw [hcons]; exact List.mem_cons_self _ _
      have hgt : a > now - w := by simpa using List.of_mem_filter hmem
      have hres : (RateLimiter.check w m now hits).1.resetMs =
          (hits.filter (fun t => t > now - w)).headD 0 + w - now := by
        simp only [RateLimiter.check, hdec, Bool.false_eq_true, if_false]
        have hpos : (hits.filter (fun t => t > now - w)).length > 0 := by
          rw [hcons]; simp
        simp [hpos]
      rw [hres, hcons]
      simp only [List.headD_cons]
      linarith

/-- C7 witness: three immediate checks with `maxRequests = 2`,
`window = 60000`; the third check from the same IP is denied. -/
theorem rateLimiter_window_bound_and_deny_witness :
    (0 : ℤ) < 60000 ∧ List.Sorted (· ≤ ·) ([0, 0, 0] : List ℤ) ∧ 0 < 2 ∧
    (((RateLimiter.run 60000 2 [0, 0, 0] []).2.filter (inWindow 60000 (-1))).length ≤ 2) ∧
    ((RateLimiter.check 60000 2 0 [0, 0]).1.allowed = false →
      serverRateLimit (RateLimiter.check 60000 2 0 [0, 0]).1 =
        some (429, (RateLimiter.check 60000 2 0 [0, 0]).1.resetMs) ∧
      0 < (RateLimiter.check 60000 2 0 [0, 0]).1.resetMs) :=
  ⟨by norm_num, by decide, by norm_num,
   rateLimiter_window_bound_and_deny 60000 2 [0, 0, 0] (-1) 0 [0, 0]
     (by norm_num) (by decide) (by norm_num)⟩

/-- C10 witness: the frame property applied to the denied third request
of the spec's rate-limit scenario. -/
theorem rateLimiter_denied_frame_witness :
    (RateLimiter.check 60000 2 0 [0, 0]).1.allowed = false ∧
    ((RateLimiter.check 60000 2 0 [0, 0]).2 =
        ([0, 0] : List ℤ).filter (fun t => t > 0 - 60000) ∧
      (∀ t ∈ (RateLimiter.check 60000 2 0 [0, 0]).2, t ∈ ([0, 0] : List ℤ)) ∧
      (∀ now' : ℤ, 0 < 2 → (∀ t ∈ ([0, 0] : List ℤ), t ≤ now' - 60000) →
        (RateLimiter.check 60000 2 now' (RateLimiter.check 60000 2 0 [0, 0]).2).1.allowed
          = true)) :=
  ⟨by decide, rateLimiter_denied_frame 60000 2 0 [0, 0] (by decide)⟩

/-! ## C8: hook-bus error isolation -/

/-- The trace of an `onError` dispatch names every registered handler,
in order. -/
theorem runOnErrorList_trace {σ : Type} (hs : List (Handler σ)) :
    ∀ st : HState σ,
      (runOnErrorList hs st).2 = hs.map (fun h => ("onError", h.1)) := by
  induction hs with
  | nil => intro st; rfl
  | cons h rest ih =>
    intro st
    obtain ⟨nm, fn⟩ := h
    simp only [runOnErrorList]
    cases hr : fn st with
    | ok o => cases o <;> simp [ih]
    | err msg => simp [ih]

/-- Running a concatenation of handler lists runs the first list and
continues with the second from the resulting state. -/
theorem runList_append {σ : Type} (point : String) (onErr : List (Handler σ)) :
    ∀ (xs ys : List (Handler σ)) (st : HState σ),
      runList point onErr (xs ++ ys) st =
        ((runList point onErr ys (runList point onErr xs st).1).1,
         (runList point onErr xs st).2 ++
           (runList point onErr ys (runList point onErr xs st).1).2) := by
  intro xs
  induction xs with
  | nil => intro ys st; simp [runList]
  | cons h rest ih =>
    intro ys st
    obtain ⟨nm, fn⟩ := h
    simp only [List.cons_append, runList]
    cases hr : fn st with
    | ok o => cases o <;> simp [ih]
    | err msg => simp [ih]

/-- The trace entries tagged with the running point name exactly the
registered handlers in order: every handler executes. -/
theorem runList_trace_filter {σ : Type} (point : String) (onErr : List (Handler σ)) :
    ∀ (hs : List (Handler σ)) (st : HState σ),
      (((runList point onErr hs st).2).filter (fun e => e.1 == point)).map Prod.snd
        = hs.map Prod.fst := by
  intro hs
  induction hs with
  | nil => intro st; rfl
  | cons h rest ih =>
    intro st
    obtain ⟨nm, fn⟩ := h
    simp only [runList]
    cases hr : fn st with
    | ok o => cases o <;> simp [List.filter_cons, ih]
    | err msg =>
      by_cases hp : point = "onError"
      · subst hp
        simp [List.filter_cons, ih]
      · have hfil : ∀ stx : HState σ,
            ((runOnErrorList onErr stx).2).filter (fun e => e.1 == point) = [] := by
          intro stx
          rw [runOnErrorList_trace, List.filter_eq_nil_iff]
          intro e he
          obtain ⟨g, _, rfl⟩ := List.mem_map.mp he
          simp
          exact fun hcon => hp hcon.symm
        simp [List.filter_cons, List.filter_append, hfil, ih, hp]

/-- Captured errors survive the rest of the run when every remaining
handler preserves the `_hookErrors` entries of states it replaces. -/
theorem runList_keeps_errors {σ : Type} (point : String) (onErr : List (Handler σ)) :
    ∀ (hs : List (Handler σ)) (st : HState σ) (e : HookErr),
      (∀ h ∈ hs, keepsErrors h.2) → e ∈ st.hookErrors →
      e ∈ (runList point onErr hs st).1.hookErrors := by
  intro hs
  induction hs with
  | nil => intro st e _ hmem; exact hmem
  | cons h rest ih =>
    intro st e hkeep hmem
    obtain ⟨nm, fn⟩ := h
    have hrest : ∀ h ∈ rest, keepsErrors h.2 :=
      fun h hh => hkeep h (List.mem_cons_of_mem _ hh)
    simp only [runList]
    cases hr : fn st with
    | ok o =>
      cases o with
      | none => exact ih st e hrest hmem
      | some s1 =>
        have hk : keepsErrors fn := hkeep (nm, fn) (List.mem_cons_self _ _)
        exact ih s1 e hrest (hk st s1 hr e hmem)
    | err msg =>
      exact ih _ e hrest (by simp [hmem])

/-- At the `onError` point itself no nested dispatch happens: the trace
is exactly the handler list. -/
theorem runList_trace_onError {σ : Type} (onErr : List (Handler σ)) :
    ∀ (hs : List (Handler σ)) (st : HState σ),
      (runList "onError" onErr hs st).2 = hs.map (fun h => ("onError", h.1)) := by
  intro hs
  induction hs with
  | nil => intro st; rfl
  | cons h rest ih =>
    intro st
    obtain ⟨nm, fn⟩ := h
    simp only [runList]
    cases hr : fn st with
    | ok o => cases o <;> simp [ih]
    | err msg => simp [ih]

/-- C8: when a handler throws during `run(point, state)`, the remaining
handlers at that point still execute and `run` returns normally (the
point-tagged trace lists every handler); the failure is recorded as a
`{ hook, handler, error }` entry in the threaded state's `_hookErrors`
(surviving to the final state whenever later handlers preserve recorded
errors); and the `onError` handlers are all invoked — unless the failing
point is `onError` itself, in which case no nested dispatch happens. -/
theorem hooks_error_isolation {σ : Type} (point : String)
    (pre post : List (Handler σ)) (nm : String) (fn : HState σ → HRes σ)
    (onErr : List (Handler σ)) (st : HState σ) (msg : String)
    (hfail : fn (runList point onErr pre st).1 = .err msg) :
    ((((runList point onErr (pre ++ (nm, fn) :: post) st).2).filter
        (fun e => e.1 == point)).map Prod.snd
      = (pre ++ (nm, fn) :: post).map Prod.fst) ∧
    ((∀ h ∈ post, keepsErrors h.2) →
      (⟨point, nm, msg⟩ : HookErr) ∈
        (runList point onErr (pre ++ (nm, fn) :: post) st).1.hookErrors) ∧
    (point ≠ "onError" →
      ∀ g ∈ onErr, ("onError", g.1) ∈
        (runList point onErr (pre ++ (nm, fn) :: post) st).2) ∧
    (point = "onError" →
      (runList point onErr (pre ++ (nm, fn) :: post) st).2
        = (pre ++ (nm, fn) :: post).map (fun h => (point, h.1))) := by
  have happ := runList_append point onErr pre ((nm, fn) :: post) st
  refine ⟨runList_trace_filter point onErr _ st, ?_, ?_, ?_⟩
  · intro hpost
    rw [happ]
    simp only [runList, hfail]
    apply runList_keeps_errors point onErr post _ _ hpost
    simp
  · intro hne g hg
    rw [happ]
    simp only [runList, hfail]
    apply List.mem_append_right
    apply List.mem_cons_of_mem
    apply List.mem_append_left
    rw [if_pos hne, runOnErrorList_trace]
    exact List.mem_map.mpr ⟨g, hg, rfl⟩
  · intro hpo
    subst hpo
    exact runList_trace_onError onErr _ st

/-- C8 witness: a two-handler point where the first handler throws; the
error-isolation theorem applied there shows the `onError` handler is
invoked. -/
theorem hooks_error_isolation_witness :
    hookFailFn (runList "beforeGenerate" [("e1", hookOkFn)]
      ([] : List (Handler Unit)) hookSt).1 = .err "boom" ∧
    ("onError", "e1") ∈ (runList "beforeGenerate" [("e1", hookOkFn)]
      ([] ++ ("h1", hookFailFn) :: [("h2", hookOkFn)]) hookSt).2 :=
  ⟨rfl,
   (hooks_error_isolation "beforeGenerate" [] [("h2", hookOkFn)] "h1" hookFailFn
      [("e1", hookOkFn)] hookSt "boom" rfl).2.2.1 (by decide)
     ("e1", hookOkFn) (List.mem_singleton.mpr rfl)⟩
